import Mathlib

/-!
# Verification of the iswcoin Quantitative Analytics Engine

Shallow embedding of the three engine components of the repository
(`apps/engine/src/models/`): `AnomalyDetector` (anomaly_detector.py),
`RegimeDetector` (regime_detector.py) and `PortfolioOptimizer`
(portfolio_optimizer.py), together with theorems settling the spec claims.

Modelling conventions:
* Python/NumPy floating-point values are idealised as rationals (`ℚ`);
  the claims under study concern threshold comparisons, clamping, ordering
  and structural behaviour, for which exact rational arithmetic is faithful.
* NumPy one-dimensional arrays become `List ℚ`, 2-D arrays `List (List ℚ)`.
* External numerical libraries (scipy's SLSQP solver, hmmlearn's fitted
  GaussianHMM, NumPy's seeded `default_rng` sampler) are not part of this
  repository; they enter the embedding as explicit function parameters, so
  theorems quantify over every behaviour those libraries could exhibit.
* Python's `sorted`/`list.sort` are stable; they are embedded with
  Mathlib's `List.insertionSort`, which is stable with the same
  insert-before-first-not-less discipline.
-/

namespace Iswcoin

/-- The additive epsilon `1e-10` used throughout the source to guard
divisions (e.g. `prices[-window - 1] + 1e-10`). -/
def eps : ℚ := 1 / 10000000000

/-- Mean of a list of rationals: `np.mean` / `.mean()`.  NumPy's mean of an
empty array is `nan`; here `sum [] / 0 = 0` — every use in the source is
guarded by a length check, so the empty case is unreachable. -/
def listMean (l : List ℚ) : ℚ := l.sum / l.length

/-- `l[-k]` for a NumPy array: the `k`-th element counted from the end
(`k ≥ 1`).  Out-of-range access is idealised as `0`; all uses in the source
are guarded by length checks making the access in bounds. -/
def fromEnd (l : List ℚ) (k : Nat) : ℚ := l.getD (l.length - k) 0

/-- The NumPy slice `l[-(k+1):-1]`: the `k` bars immediately preceding the
last one.  Used with a guard ensuring `l.length ≥ k + 1`. -/
def tailWindow (l : List ℚ) (k : Nat) : List ℚ :=
  (l.drop (l.length - (k + 1))).dropLast

/-- Dot product `a @ b` (NumPy truncates nothing: lengths agree at every
call site; `zipWith` truncates to the shorter list). -/
def dotQ (a b : List ℚ) : ℚ := (List.zipWith (· * ·) a b).sum

/-- Column means `returns.mean(axis=0)` of a `(T, n_assets)` matrix. -/
def colMeans (returns : List (List ℚ)) : List ℚ :=
  let n := (returns.headD []).length
  (List.range n).map (fun j => (returns.map (fun r => r.getD j 0)).sum / returns.length)

/-- Sample covariance matrix `np.cov(returns, rowvar=False)`: unbiased,
denominator `T - 1`.  For `T = 1` NumPy emits `nan`s; the rational model
yields `x / 0 = 0` — no claim depends on that degenerate case.  (NumPy also
squeezes the 1-asset case to a 0-d array; we keep a `1×1` matrix.) -/
def npCov (returns : List (List ℚ)) : List (List ℚ) :=
  let T := returns.length
  let mu := colMeans returns
  let n := (returns.headD []).length
  (List.range n).map (fun i => (List.range n).map (fun j =>
    (returns.map (fun r =>
      (r.getD i 0 - mu.getD i 0) * (r.getD j 0 - mu.getD j 0))).sum / ((T : ℚ) - 1)))

/-! ## AnomalyDetector (src/apps/engine/src/models/anomaly_detector.py) -/

/-- The four anomaly types (`AnomalyType`, lines 10-14). -/
inductive AnomalyType where
  | FLASH_CRASH
  | PUMP
  | VOLUME_SPIKE
  | LIQUIDITY_CRISIS
deriving DecidableEq, Repr

/-- A detected market anomaly (`AnomalyEvent`, lines 17-24).  The
interpolated `description` strings and the `details` numeric payload are
carried, with Python float formatting idealised away (the fixed text prefix
is kept; no claim concerns the description text). -/
structure AnomalyEvent where
  anomaly_type : AnomalyType
  severity : ℚ
  description : String
  details : List (String × ℚ)
deriving DecidableEq, Repr

/-- `AnomalyDetector.detect_flash_crash` (lines 34-59): true when the
return over the last `window` bars is at most `threshold`. -/
def detect_flash_crash (prices : List ℚ) (threshold : ℚ := -(1/20))
    (window : Nat := 5) : Bool :=
  if prices.length < window + 1 then false
  else
    let recent_return := fromEnd prices 1 / (fromEnd prices (window + 1) + eps) - 1
    decide (recent_return ≤ threshold)

/-- `AnomalyDetector.detect_pump` (lines 61-98): large same-window price
rise combined with current volume at least `vol_threshold` times the mean
of the preceding `window` volumes. -/
def detect_pump (prices volumes : List ℚ) (price_threshold : ℚ := 1/10)
    (vol_threshold : ℚ := 3) (window : Nat := 5) : Bool :=
  if prices.length < window + 1 || volumes.length < window + 1 then false
  else
    let recent_return := fromEnd prices 1 / (fromEnd prices (window + 1) + eps) - 1
    let mean_volume := listMean (tailWindow volumes window)
    let current_volume := fromEnd volumes 1
    decide (price_threshold ≤ recent_return) &&
      decide (vol_threshold * (mean_volume + eps) ≤ current_volume)

/-- `AnomalyDetector.detect_volume_spike` (lines 100-116). -/
def detect_volume_spike (volumes : List ℚ) (threshold : ℚ := 3)
    (window : Nat := 20) : Bool :=
  if volumes.length < window + 1 then false
  else
    let mean_vol := listMean (tailWindow volumes window)
    decide (threshold * (mean_vol + eps) ≤ fromEnd volumes 1)

/-- `AnomalyDetector.detect_liquidity_crisis` (lines 118-135). -/
def detect_liquidity_crisis (orderbook_depth : List ℚ) (threshold : ℚ := 3/10)
    (window : Nat := 10) : Bool :=
  if orderbook_depth.length < window + 1 then false
  else
    let mean_depth := listMean (tailWindow orderbook_depth window)
    decide (fromEnd orderbook_depth 1 ≤ threshold * (mean_depth + eps))

/-- The caller-supplied `market_data` dict of `scan_all`: three optional
1-D series. -/
structure MarketData where
  prices : Option (List ℚ)
  volumes : Option (List ℚ)
  orderbook_depth : Option (List ℚ)

/-- Flash-crash block of `scan_all` (lines 165-176). -/
def flashEvents (md : MarketData) : List AnomalyEvent :=
  match md.prices with
  | none => []
  | some p =>
    if detect_flash_crash p then
      let recent_ret := fromEnd p 1 / (fromEnd p 6 + eps) - 1
      let severity := min (|recent_ret| / (1/5)) 1
      [{ anomaly_type := .FLASH_CRASH, severity := severity,
         description := "Flash crash detected",
         details := [("return", recent_ret)] }]
    else []

/-- Pump block of `scan_all` (lines 178-191). -/
def pumpEvents (md : MarketData) : List AnomalyEvent :=
  match md.prices, md.volumes with
  | some p, some v =>
    if detect_pump p v then
      let recent_ret := fromEnd p 1 / (fromEnd p 6 + eps) - 1
      let vol_ratio := fromEnd v 1 / (listMean (tailWindow v 5) + eps)
      let severity := min (recent_ret / (3/10)) 1
      [{ anomaly_type := .PUMP, severity := severity,
         description := "Pump detected",
         details := [("return", recent_ret), ("volume_ratio", vol_ratio)] }]
    else []
  | _, _ => []

/-- Volume-spike block of `scan_all` (lines 193-205). -/
def volumeEvents (md : MarketData) : List AnomalyEvent :=
  match md.volumes with
  | none => []
  | some v =>
    if detect_volume_spike v then
      let mean_vol := if 21 ≤ v.length then listMean (tailWindow v 20)
                      else listMean v.dropLast
      let ratio := fromEnd v 1 / (mean_vol + eps)
      let severity := min ((ratio - 3) / 7) 1
      [{ anomaly_type := .VOLUME_SPIKE, severity := max severity 0,
         description := "Volume spike",
         details := [("volume_ratio", ratio)] }]
    else []

/-- Liquidity-crisis block of `scan_all` (lines 207-219). -/
def liquidityEvents (md : MarketData) : List AnomalyEvent :=
  match md.orderbook_depth with
  | none => []
  | some d =>
    if detect_liquidity_crisis d then
      let mean_depth := if 11 ≤ d.length then listMean (tailWindow d 10)
                        else listMean d.dropLast
      let ratio := fromEnd d 1 / (mean_depth + eps)
      let severity := min ((1 - ratio) / (7/10)) 1
      [{ anomaly_type := .LIQUIDITY_CRISIS, severity := max severity 0,
         description := "Liquidity crisis",
         details := [("depth_ratio", ratio)] }]
    else []

/-- `AnomalyDetector.scan_all` (lines 141-221): the four detector blocks
append their events in order. -/
def scan_all (md : MarketData) : List AnomalyEvent :=
  flashEvents md ++ pumpEvents md ++ volumeEvents md ++ liquidityEvents md

/-! ## RegimeDetector (src/apps/engine/src/models/regime_detector.py) -/

/-- The four canonical market regimes (`MarketRegime`, lines 12-18).
The Python `IntEnum` values are `toNat`. -/
inductive MarketRegime where
  | BULL_HIGH_VOL
  | BULL_LOW_VOL
  | BEAR_HIGH_VOL
  | BEAR_LOW_VOL
deriving DecidableEq, Repr

/-- The `IntEnum` numeric value of a regime. -/
def MarketRegime.toNat : MarketRegime → Nat
  | .BULL_HIGH_VOL => 0
  | .BULL_LOW_VOL => 1
  | .BEAR_HIGH_VOL => 2
  | .BEAR_LOW_VOL => 3

/-- The `IntEnum` constructor `MarketRegime(n)`.  In the source it is only
called as `MarketRegime(raw_idx % 4)`, so the argument is always `0..3`
the catch-all arm is the `3` case. -/
def MarketRegime.fromCode : Nat → MarketRegime
  | 0 => .BULL_HIGH_VOL
  | 1 => .BULL_LOW_VOL
  | 2 => .BEAR_HIGH_VOL
  | _ => .BEAR_LOW_VOL

/-- `_REGIME_LABELS` (lines 21-26). -/
def regimeLabel : MarketRegime → String
  | .BULL_HIGH_VOL => "BULL_HIGH_VOL"
  | .BULL_LOW_VOL => "BULL_LOW_VOL"
  | .BEAR_HIGH_VOL => "BEAR_HIGH_VOL"
  | .BEAR_LOW_VOL => "BEAR_LOW_VOL"

/-- One row of the feature matrix built by `_build_features`:
`(returns, volatility, volume_change)`.  Feature construction itself uses
`np.log` (irrational over ℚ); the claims quantify over arbitrary feature
matrices, covering every matrix the construction can produce. -/
structure FeatRow where
  ret : ℚ
  vol : ℚ
  volChange : ℚ
deriving DecidableEq, Repr

/-- `RegimePrediction` (lines 29-36); `all_probabilities` is a Python dict
in insertion order, modelled as an association list. -/
structure RegimePrediction where
  regime : MarketRegime
  label : String
  probability : ℚ
  all_probabilities : List (String × ℚ)
deriving DecidableEq, Repr

/-- Mean return and mean volatility of raw state `s` over the feature rows
assigned to it (`_map_states`, lines 175-184): `(0, 0)` when no row is
assigned.  `states` is `hmm.predict(features)`, one state per feature row. -/
def stateMean (states : List Nat) (features : List FeatRow) (s : Nat) : ℚ × ℚ :=
  let rows := ((states.zip features).filter (fun p => p.1 = s)).map (·.2)
  if rows.length = 0 then (0, 0)
  else ((rows.map FeatRow.ret).sum / rows.length, (rows.map FeatRow.vol).sum / rows.length)

/-- `RegimeDetector._map_states` (lines 166-207): two-stage stable sort of
the raw states — by mean return descending, split the top `n_regimes // 2`
as bulls, then each group by mean volatility descending — and assignment of
the first two of each group.  Python's stable `sorted(..., reverse=True)` /
`list.sort(..., reverse=True)` are `List.insertionSort` with the flipped
key comparison. -/
def map_states (n_regimes : Nat) (states : List Nat) (features : List FeatRow) :
    List (Nat × MarketRegime) :=
  let means := fun s => stateMean states features s
  let sorted_states :=
    List.insertionSort (fun a b => (means b).1 ≤ (means a).1) (List.range n_regimes)
  let half := n_regimes / 2
  let bulls := List.insertionSort (fun a b => (means b).2 ≤ (means a).2) (sorted_states.take half)
  let bears := List.insertionSort (fun a b => (means b).2 ≤ (means a).2) (sorted_states.drop half)
  (if 1 ≤ bulls.length then [(bulls.getD 0 0, MarketRegime.BULL_HIGH_VOL)] else []) ++
  ((if 2 ≤ bulls.length then [(bulls.getD 1 0, MarketRegime.BULL_LOW_VOL)] else []) ++
  ((if 1 ≤ bears.length then [(bears.getD 0 0, MarketRegime.BEAR_HIGH_VOL)] else []) ++
  (if 2 ≤ bears.length then [(bears.getD 1 0, MarketRegime.BEAR_LOW_VOL)] else [])))

/-- The per-state statistics exactly as the claim words them, written
independently of `stateMean` (filterMap instead of filter∘map, emptiness by
list equality, `listMean`). -/
def claimStateStats (states : List Nat) (features : List FeatRow) (s : Nat) : ℚ × ℚ :=
  let rows := (states.zip features).filterMap (fun p => if p.1 = s then some p.2 else none)
  if rows = [] then (0, 0)
  else (listMean (rows.map FeatRow.ret), listMean (rows.map FeatRow.vol))

/-- The state-to-regime mapping as the claim words it: rank states by mean
return descending, the top `n_regimes // 2` are bulls and the rest bears,
rank each group by mean volatility descending, and pair the first two of
each group with `(HIGH_VOL, LOW_VOL)` — states beyond the first two of a
group receive no mapping. -/
def claim_state_mapping (n_regimes : Nat) (states : List Nat) (features : List FeatRow) :
    List (Nat × MarketRegime) :=
  let means := fun s => claimStateStats states features s
  let ranked :=
    List.insertionSort (fun a b => (means b).1 ≤ (means a).1) (List.range n_regimes)
  let bulls :=
    List.insertionSort (fun a b => (means b).2 ≤ (means a).2) (ranked.take (n_regimes / 2))
  let bears :=
    List.insertionSort (fun a b => (means b).2 ≤ (means a).2) (ranked.drop (n_regimes / 2))
  (bulls.take 2).zip [MarketRegime.BULL_HIGH_VOL, MarketRegime.BULL_LOW_VOL] ++
    (bears.take 2).zip [MarketRegime.BEAR_HIGH_VOL, MarketRegime.BEAR_LOW_VOL]

/-- The behaviour of the external, already-EM-fitted `hmmlearn.GaussianHMM`
(`self._hmm` after `fit`): its Viterbi state sequence, posterior state
probabilities and transition matrix.  The library is not part of this
repository, so it is a parameter and theorems hold for all its behaviours. -/
structure HMMOracle where
  predict : List FeatRow → List Nat
  predictProba : List FeatRow → List (List ℚ)
  transmat : List (List ℚ)

/-- The fields of a `RegimeDetector` instance (lines 51-68) that the
claims touch.  `state_map` and `is_fitted` model `_state_map`/`_is_fitted`
(leading underscores dropped); `transmat` caches `self._hmm.transmat_`. -/
structure RegimeDetector where
  n_regimes : Nat
  volatility_window : Nat
  state_map : List (Nat × MarketRegime)
  transmat : List (List ℚ)
  is_fitted : Bool

/-- `RegimeDetector.__init__` (lines 51-68): `_state_map = {}`,
`_is_fitted = False`. -/
def RegimeDetector.init (n_regimes : Nat := 4) (volatility_window : Nat := 20) :
    RegimeDetector :=
  { n_regimes := n_regimes, volatility_window := volatility_window,
    state_map := [], transmat := [], is_fitted := false }

/-- `RegimeDetector.fit` after feature construction (lines 113-117): runs
the external EM fit (absorbed into the `hmm` oracle), maps states on the
same feature matrix, and marks the instance fitted. -/
def RegimeDetector.fitF (d : RegimeDetector) (hmm : HMMOracle)
    (features : List FeatRow) : RegimeDetector :=
  { d with state_map := map_states d.n_regimes (hmm.predict features) features,
           transmat := hmm.transmat, is_fitted := true }

/-- `np.argmax`: index of the first maximal element.  NumPy is external;
this is its documented first-occurrence semantics (argmax of the empty
array raises in NumPy; the model returns 0, and every call site is reached
only with a nonempty posterior row). -/
def argmaxIdx : List ℚ → Nat
  | [] => 0
  | x :: t =>
    if t.length = 0 then 0
    else if x < t.getD (argmaxIdx t) 0 then argmaxIdx t + 1 else 0

/-- Python dict assignment `d[k] = v`: overwrite in place if the key is
present (keeping its position), otherwise append. -/
def dictInsert (d : List (String × ℚ)) (k : String) (v : ℚ) : List (String × ℚ) :=
  if d.any (fun p => p.1 = k) then d.map (fun p => if p.1 = k then (k, v) else p)
  else d ++ [(k, v)]

/-- The post-fit body of `RegimeDetector.predict` (lines 129-146), given
the fitted state map and the posterior distribution of the last feature
row: `raw_state = argmax`, `mapped_regime = state_map.get(raw_state,
BULL_LOW_VOL)`, and the `all_probs` dict built with the
`MarketRegime(raw_idx % 4)` fallback. -/
def predictCore (state_map : List (Nat × MarketRegime)) (last_posterior : List ℚ) :
    RegimePrediction :=
  let raw_state := argmaxIdx last_posterior
  let mapped_regime := (state_map.lookup raw_state).getD MarketRegime.BULL_LOW_VOL
  let all_probs := last_posterior.enum.foldl
    (fun acc p =>
      dictInsert acc
        (regimeLabel ((state_map.lookup p.1).getD (MarketRegime.fromCode (p.1 % 4)))) p.2) []
  { regime := mapped_regime, label := regimeLabel mapped_regime,
    probability := last_posterior.getD raw_state 0, all_probabilities := all_probs }

/-- The claim's wording of the fallback labelling in `predict`'s
probability dict: a raw state with no entry in the state map defaults to
`MarketRegime(state_index % 4)`. -/
def claimLabelOf (state_map : List (Nat × MarketRegime)) (idx : Nat) : String :=
  regimeLabel ((state_map.lookup idx).getD (MarketRegime.fromCode (idx % 4)))

/-- The claim's wording of the full probability dict: label every raw
index of the last posterior row by `claimLabelOf` and enter the pairs into
the dict in index order. -/
def claimAllProbs (state_map : List (Nat × MarketRegime)) (lp : List ℚ) :
    List (String × ℚ) :=
  (lp.enum.map (fun p => (claimLabelOf state_map p.1, p.2))).foldl
    (fun acc q => dictInsert acc q.1 q.2) []

/-- `RegimeDetector.predict` (lines 119-146): raises `RuntimeError` when
not fitted (lines 126-127), before any computation; then reports on the
last posterior row (`posteriors[-1]` raises `IndexError` when the feature
matrix is empty, modelled as the second error case). -/
def RegimeDetector.predictE (d : RegimeDetector) (hmm : HMMOracle)
    (features : List FeatRow) : Except String RegimePrediction :=
  if !d.is_fitted then
    .error "RegimeDetector has not been fitted yet. Call fit() first."
  else
    match (hmm.predictProba features).getLast? with
    | none => .error "IndexError"
    | some last_posterior => .ok (predictCore d.state_map last_posterior)

/-- `RegimeDetector.get_transition_matrix` (lines 148-156): raises when not
fitted, otherwise returns the transition matrix. -/
def RegimeDetector.get_transition_matrix (d : RegimeDetector) :
    Except String (List (List ℚ)) :=
  if !d.is_fitted then .error "RegimeDetector has not been fitted yet."
  else .ok d.transmat

/-- `RegimeDetector.get_state_map` (lines 158-160): no fitted check — it
simply relabels whatever `_state_map` holds (the empty dict before any
fit). -/
def RegimeDetector.get_state_map (d : RegimeDetector) : List (Nat × String) :=
  d.state_map.map (fun p => (p.1, regimeLabel p.2))

/-! ## PortfolioOptimizer (src/apps/engine/src/models/portfolio_optimizer.py) -/

/-- `np.percentile(xs, q)` with the default linear interpolation: sort
ascending, take `h = q/100 * (n-1)`, and interpolate between the
neighbouring order statistics. -/
def percentile (xs : List ℚ) (q : ℚ) : ℚ :=
  let s := List.insertionSort (· ≤ ·) xs
  if s.length = 0 then 0
  else
    let h : ℚ := q / 100 * ((s.length : ℚ) - 1)
    let i : Nat := (⌊h⌋).toNat
    let lo := s.getD i 0
    let hi := s.getD (i + 1) lo
    lo + (h - (⌊h⌋ : ℚ)) * (hi - lo)

/-- `scipy.optimize.OptimizeResult` as the engine consumes it: the final
iterate `x` and the `success` flag. -/
structure SolverResult where
  x : List ℚ
  success : Bool

/-- The minimisation problem `mean_variance_optimize` hands to
`scipy.optimize.minimize` (lines 52-73): sample statistics, bounds
(`None` when shorting is allowed, else `[0,1]` per asset), and the
equal-weight start.  The objective `-(w·μ - ½·risk_aversion·wᵀΣw)` and the
`Σw = 1` equality constraint are determined by these fields. -/
structure MVProblem where
  mu : List ℚ
  cov : List (List ℚ)
  risk_aversion : ℚ
  bounds : Option (List (ℚ × ℚ))
  x0 : List ℚ
deriving DecidableEq

/-- The problem construction of `mean_variance_optimize` (lines 52-64). -/
def mvProblem (returns : List (List ℚ)) (risk_aversion : ℚ) (allow_short : Bool) :
    MVProblem :=
  let n_assets := (returns.headD []).length
  { mu := colMeans returns, cov := npCov returns, risk_aversion := risk_aversion,
    bounds := if allow_short then none else some (List.replicate n_assets (0, 1)),
    x0 := List.replicate n_assets (1 / (n_assets : ℚ)) }

/-- `PortfolioOptimizer.mean_variance_optimize` (lines 30-74).  SciPy's
SLSQP is external to the repository, so it is the parameter `slsqp`; the
source returns `result.x` unconditionally — no convergence check and no
post-solve validation of the constraints (lines 66-74). -/
def mean_variance_optimize (slsqp : MVProblem → SolverResult)
    (returns : List (List ℚ)) (risk_aversion : ℚ := 1) (allow_short : Bool := false) :
    List ℚ :=
  (slsqp (mvProblem returns risk_aversion allow_short)).x

/-- A point on the efficient frontier (`EfficientFrontierPoint`, lines
10-16).  The source stores `risk = sqrt(wᵀΣw)`; the square root of a
rational is irrational in general, so `risk` here carries the variance
`wᵀΣw` itself — `Real.sqrt` is strictly monotone on nonnegative reals, so
ordering statements about the source's risk are statements about
`Real.sqrt risk`. -/
structure EfficientFrontierPoint where
  risk : ℚ
  ret : ℚ
  weights : List ℚ

/-- `w @ cov @ w`. -/
def portfolio_variance (cov : List (List ℚ)) (w : List ℚ) : ℚ :=
  dotQ w (cov.map (fun row => dotQ row w))

/-- `np.linspace(start, stop, num)`: `num` evenly spaced points including
both endpoints (`[start]` for `num = 1`). -/
def linspace (start stop : ℚ) (num : Nat) : List ℚ :=
  if num = 0 then []
  else if num = 1 then [start]
  else (List.range num).map (fun i : Nat => start + (i : ℚ) * (stop - start) / ((num : ℚ) - 1))

/-- The minimisation problem for one frontier target return (lines
102-117): minimise portfolio volatility subject to `Σw = 1` and
`w·μ = target_ret`. -/
structure EFProblem where
  mu : List ℚ
  cov : List (List ℚ)
  target_ret : ℚ
  bounds : Option (List (ℚ × ℚ))
  x0 : List ℚ

/-- `PortfolioOptimizer.efficient_frontier` (lines 80-123): solve one
volatility-minimisation problem per target in
`linspace(min μ, max μ, n_points)`, keep only successful solves (line 118),
and sort ascending by risk (line 122, Python's stable `list.sort`). -/
def efficient_frontier (slsqp : EFProblem → SolverResult)
    (returns : List (List ℚ)) (n_points : Nat := 50) (allow_short : Bool := false) :
    List EfficientFrontierPoint :=
  let n_assets := (returns.headD []).length
  let mu := colMeans returns
  let cov := npCov returns
  let bounds := if allow_short then none else some (List.replicate n_assets ((0 : ℚ), 1))
  let x0 := List.replicate n_assets (1 / (n_assets : ℚ))
  let target_returns := linspace (mu.foldr min (mu.headD 0)) (mu.foldr max (mu.headD 0)) n_points
  let frontier := target_returns.filterMap (fun target_ret =>
    let result := slsqp { mu := mu, cov := cov, target_ret := target_ret,
                          bounds := bounds, x0 := x0 }
    if result.success then
      some { risk := portfolio_variance cov result.x, ret := target_ret, weights := result.x }
    else none)
  List.insertionSort (fun a b => a.risk ≤ b.risk) frontier

/-- The parameters `monte_carlo_var` hands to
`rng.multivariate_normal(mu * horizon, cov * horizon, size=n_sim)`. -/
structure MVNSpec where
  mean : List ℚ
  cov : List (List ℚ)
  size : Nat
deriving DecidableEq

/-- `PortfolioOptimizer.monte_carlo_var` (lines 129-164).  NumPy's
`default_rng` is external; `sample seed spec` models drawing from the
generator created with that seed — the source always calls it with the
literal seed 42 (line 160).  VaR is the negated `(1-confidence)`
percentile of the simulated equal-weight portfolio returns, floored at 0
(line 164). -/
def monte_carlo_var (sample : Nat → MVNSpec → List (List ℚ))
    (returns : List (List ℚ)) (confidence : ℚ := 19/20) (horizon : Nat := 1)
    (n_sim : Nat := 10000) : ℚ :=
  let n_assets := (returns.headD []).length
  let mu := colMeans returns
  let cov := npCov returns
  let weights := List.replicate n_assets (1 / (n_assets : ℚ))
  let simulated := sample 42
    { mean := mu.map (· * (horizon : ℚ)),
      cov := cov.map (fun row => row.map (· * (horizon : ℚ))), size := n_sim }
  let portfolio_returns := simulated.map (fun r => dotQ r weights)
  let var := -(percentile portfolio_returns ((1 - confidence) * 100))
  max var 0

/-- `PortfolioOptimizer.cvar` (lines 170-202): historical expected
shortfall — the negated mean of the weighted portfolio returns at or below
the `(1-confidence)` percentile cutoff; 0 when the tail is empty. -/
def cvar (returns : List (List ℚ)) (confidence : ℚ := 19/20)
    (weights : Option (List ℚ) := none) : ℚ :=
  let n_assets := (returns.headD []).length
  let w := weights.getD (List.replicate n_assets (1 / (n_assets : ℚ)))
  let port_returns := returns.map (fun r => dotQ r w)
  let cutoff := percentile port_returns ((1 - confidence) * 100)
  let tail := port_returns.filter (fun x => x ≤ cutoff)
  if tail.length = 0 then 0 else -(tail.sum / (tail.length : ℚ))

/-! ## Claim theorems -/

/-- C9: with the default threshold −0.05 and window 5,
`detect_flash_crash` returns true on the price series
`[100, 100, 100, 100, 100, 94]` (a −6% return over the last 5 bars) and
false on `[100, 100, 100, 100, 100, 96]` (only −4%). -/
theorem claim_C9_flash_crash_examples :
    detect_flash_crash [100, 100, 100, 100, 100, 94] = true ∧
    detect_flash_crash [100, 100, 100, 100, 100, 96] = false := by
  constructor <;> norm_num [detect_flash_crash, fromEnd, eps, List.getD]

/-- C3 (code bug, `cvar` half): the claim says `cvar` returns a
non-negative number for every valid returns matrix and confidence in
(0, 1), and the source docstring promises a "positive number"; but on the
one-row matrix `[[0.1]]` (a single all-positive return) the percentile
cutoff is 0.1, the tail is `[0.1]`, and the code returns −0.1 < 0 — unlike
`monte_carlo_var`, `cvar` has no `max(·, 0)` floor. -/
theorem claim_C3_cvar_negative_on_positive_returns :
    cvar [[1/10]] (19/20) none = -(1/10) ∧ cvar [[1/10]] (19/20) none < 0 := by
  have h : cvar [[1/10]] (19/20) none = -(1/10) := by
    norm_num [cvar, percentile, dotQ, listMean, List.getD, List.insertionSort,
      List.orderedInsert]
  exact ⟨h, by rw [h]; norm_num⟩

/-- C4 (counterexample): on a never-fitted detector, `get_state_map` does
not fail — it returns the empty mapping, because lines 158-160 of
regime_detector.py perform no fitted check. -/
theorem claim_C4_counterexample_get_state_map_unfitted :
    (RegimeDetector.init 4 20).get_state_map = [] := rfl

/-- C4 (amended): before a successful fit, `predict` and
`get_transition_matrix` fail with their explicit "not fitted" errors;
`get_state_map` is the exception the original claim missed. -/
theorem claim_C4_unfitted_predict_and_transmat_error (d : RegimeDetector)
    (hmm : HMMOracle) (features : List FeatRow) (h : d.is_fitted = false) :
    d.predictE hmm features =
        .error "RegimeDetector has not been fitted yet. Call fit() first." ∧
      d.get_transition_matrix = .error "RegimeDetector has not been fitted yet." := by
  constructor <;>
    simp [RegimeDetector.predictE, RegimeDetector.get_transition_matrix, h]

/-- C4 (witness): the amended theorem applied to a freshly constructed
detector. -/
theorem claim_C4_unfitted_witness :
    (RegimeDetector.init 4 20).is_fitted = false ∧
    ((RegimeDetector.init 4 20).predictE ⟨fun _ => [], fun _ => [], []⟩ [] =
        .error "RegimeDetector has not been fitted yet. Call fit() first." ∧
      (RegimeDetector.init 4 20).get_transition_matrix =
        .error "RegimeDetector has not been fitted yet.") :=
  ⟨rfl, claim_C4_unfitted_predict_and_transmat_error _ ⟨fun _ => [], fun _ => [], []⟩ [] rfl⟩

/-- C2 (counterexample): `mean_variance_optimize` returns `result.x`
without checking `result.success` or validating the constraints (lines
66-74), so when the solver's last iterate violates `Σw = 1` — which SLSQP
permits on non-convergence, and which the spec itself documents as a known
gap (§7) — the returned weights do not sum to 1 within `1e-6`. -/
theorem claim_C2_counterexample_unvalidated_iterate :
    1/1000000 <
      |(mean_variance_optimize (fun _ => ⟨[2], false⟩) [[0]] 1 false).sum - 1| := by
  norm_num [mean_variance_optimize]

/-- C2 (amended): the engine returns the solver's last iterate unchanged,
so the sum-to-one and (for `allow_short = False`) `[0, 1]` bounds
invariants hold within `1e-6` exactly when the solver's iterate satisfies
them — e.g. for every converged SLSQP solve; the engine itself performs no
post-solve validation. -/
theorem claim_C2_weights_valid_when_solver_iterate_valid
    (slsqp : MVProblem → SolverResult) (returns : List (List ℚ))
    (risk_aversion : ℚ) (allow_short : Bool)
    (hsum : |((slsqp (mvProblem returns risk_aversion allow_short)).x).sum - 1| ≤ 1/1000000)
    (hbox : allow_short = false →
      ∀ w ∈ (slsqp (mvProblem returns risk_aversion allow_short)).x,
        -(1/1000000) ≤ w ∧ w ≤ 1 + 1/1000000) :
    mean_variance_optimize slsqp returns risk_aversion allow_short =
        (slsqp (mvProblem returns risk_aversion allow_short)).x ∧
      |(mean_variance_optimize slsqp returns risk_aversion allow_short).sum - 1|
          ≤ 1/1000000 ∧
      (allow_short = false →
        ∀ w ∈ mean_variance_optimize slsqp returns risk_aversion allow_short,
          -(1/1000000) ≤ w ∧ w ≤ 1 + 1/1000000) :=
  ⟨rfl, hsum, hbox⟩

/-- C2 (witness): the amended theorem applied to a solver that returns the
feasible point `[1]` on the one-asset matrix `[[0]]`. -/
theorem claim_C2_weights_valid_witness :
    mean_variance_optimize (fun _ => ⟨[1], true⟩) [[0]] 1 false = [1] ∧
      |(mean_variance_optimize (fun _ => ⟨[1], true⟩) [[0]] 1 false).sum - 1|
          ≤ 1/1000000 ∧
      (false = false →
        ∀ w ∈ mean_variance_optimize (fun _ => ⟨[1], true⟩) [[0]] 1 false,
          -(1/1000000) ≤ w ∧ w ≤ 1 + 1/1000000) :=
  claim_C2_weights_valid_when_solver_iterate_valid (fun _ => ⟨[1], true⟩) [[0]] 1 false
    (by norm_num) (by intro _ w hw; simp only [List.mem_singleton] at hw; subst hw; norm_num)

/-- C7: `monte_carlo_var` is deterministic for fixed inputs — the source
creates its generator with the literal seed 42 (line 160), so the result
depends only on the sampler's behaviour at seed 42: any two generator
behaviours that agree at seed 42 (in particular, two successive calls with
ambient generator state differing arbitrarily at other seeds) produce the
identical numeric result. -/
theorem claim_C7_monte_carlo_var_deterministic
    (s1 s2 : Nat → MVNSpec → List (List ℚ)) (returns : List (List ℚ))
    (confidence : ℚ) (horizon n_sim : Nat)
    (h : ∀ spec, s1 42 spec = s2 42 spec) :
    monte_carlo_var s1 returns confidence horizon n_sim =
      monte_carlo_var s2 returns confidence horizon n_sim := by
  simp only [monte_carlo_var, h]

/-- A successful flash-crash detection (with defaults) bounds the 5-bar
return above by the −5% threshold. -/
lemma detect_flash_crash_return_le (p : List ℚ) (h : detect_flash_crash p = true) :
    fromEnd p 1 / (fromEnd p 6 + eps) - 1 ≤ -(1/20) := by
  unfold detect_flash_crash at h
  split at h
  · simp at h
  · simpa using h

/-- A successful pump detection (with defaults) bounds the 5-bar return
below by the +10% threshold. -/
lemma detect_pump_return_ge (p v : List ℚ) (h : detect_pump p v = true) :
    1/10 ≤ fromEnd p 1 / (fromEnd p 6 + eps) - 1 := by
  unfold detect_pump at h
  split at h
  · simp at h
  · simp only [Bool.and_eq_true, decide_eq_true_eq] at h
    simpa using h.1

/-- The same 5-bar return cannot simultaneously be ≤ −5% and ≥ +10%. -/
lemma flash_pump_exclusive (p v : List ℚ) (hf : detect_flash_crash p = true)
    (hp : detect_pump p v = true) : False := by
  have h1 := detect_flash_crash_return_le p hf
  have h2 := detect_pump_return_ge p v hp
  linarith

/-- Every flash-crash-block event has type `FLASH_CRASH` and severity in
`[0, 1]`. -/
lemma flashEvents_mem (md : MarketData) (e : AnomalyEvent)
    (h : e ∈ flashEvents md) :
    e.anomaly_type = .FLASH_CRASH ∧ 0 ≤ e.severity ∧ e.severity ≤ 1 := by
  obtain ⟨mp, mv, mo⟩ := md
  cases mp with
  | none => simp [flashEvents] at h
  | some p =>
    simp only [flashEvents] at h
    split at h
    · simp only [List.mem_singleton] at h
      subst h
      exact ⟨rfl, le_min (by positivity) (by norm_num), min_le_right _ _⟩
    · simp at h

/-- Every pump-block event has type `PUMP` and severity in `[0, 1]` — the
severity `min(return/0.30, 1)` has no explicit lower clamp but is
non-negative because detection requires a return of at least +10%. -/
lemma pumpEvents_mem (md : MarketData) (e : AnomalyEvent)
    (h : e ∈ pumpEvents md) :
    e.anomaly_type = .PUMP ∧ 0 ≤ e.severity ∧ e.severity ≤ 1 := by
  obtain ⟨mp, mv, mo⟩ := md
  cases mp with
  | none => simp [pumpEvents] at h
  | some p =>
    cases mv with
    | none => simp [pumpEvents] at h
    | some v =>
      simp only [pumpEvents] at h
      split at h
      · rename_i hd
        have hret := detect_pump_return_ge p v hd
        simp only [List.mem_singleton] at h
        subst h
        refine ⟨rfl, le_min (div_nonneg (by linarith) (by norm_num)) (by norm_num),
          min_le_right _ _⟩
      · simp at h

/-- Every volume-spike-block event has type `VOLUME_SPIKE` and severity in
`[0, 1]` (explicit `max(·, 0)` and `min(·, 1)` clamps). -/
lemma volumeEvents_mem (md : MarketData) (e : AnomalyEvent)
    (h : e ∈ volumeEvents md) :
    e.anomaly_type = .VOLUME_SPIKE ∧ 0 ≤ e.severity ∧ e.severity ≤ 1 := by
  obtain ⟨mp, mv, mo⟩ := md
  cases mv with
  | none => simp [volumeEvents] at h
  | some v =>
    simp only [volumeEvents] at h
    split at h
    · simp only [List.mem_singleton] at h
      subst h
      exact ⟨rfl, le_max_right _ _, max_le (min_le_right _ _) (by norm_num)⟩
    · simp at h

/-- Every liquidity-crisis-block event has type `LIQUIDITY_CRISIS` and
severity in `[0, 1]` (explicit clamps). -/
lemma liquidityEvents_mem (md : MarketData) (e : AnomalyEvent)
    (h : e ∈ liquidityEvents md) :
    e.anomaly_type = .LIQUIDITY_CRISIS ∧ 0 ≤ e.severity ∧ e.severity ≤ 1 := by
  obtain ⟨mp, mv, mo⟩ := md
  cases mo with
  | none => simp [liquidityEvents] at h
  | some d =>
    simp only [liquidityEvents] at h
    split at h
    · simp only [List.mem_singleton] at h
      subst h
      exact ⟨rfl, le_max_right _ _, max_le (min_le_right _ _) (by norm_num)⟩
    · simp at h

/-- C8: every event returned by `scan_all` has severity in `[0, 1]`: the
flash-crash severity `min(|return|/0.20, 1)` and the pump severity
`min(return/0.30, 1)` (non-negative because pump detection requires a
return ≥ +10%) are in range without an explicit lower clamp, and the
volume-spike and liquidity-crisis severities are explicitly clamped with
`max(·, 0)` and `min(·, 1)`. -/
theorem claim_C8_scan_all_severity_in_unit_interval (md : MarketData)
    (e : AnomalyEvent) (h : e ∈ scan_all md) :
    0 ≤ e.severity ∧ e.severity ≤ 1 := by
  unfold scan_all at h
  rcases List.mem_append.1 h with h | hliq
  · rcases List.mem_append.1 h with h | hvol
    · rcases List.mem_append.1 h with hf | hpu
      · exact (flashEvents_mem md e hf).2
      · exact (pumpEvents_mem md e hpu).2
    · exact (volumeEvents_mem md e hvol).2
  · exact (liquidityEvents_mem md e hliq).2

/-- C8 (witness): the theorem applied to a concrete scan that fires the
liquidity-crisis detector (11 depth observations of 0). -/
theorem claim_C8_scan_all_severity_witness :
    (⟨.LIQUIDITY_CRISIS, 1, "Liquidity crisis", [("depth_ratio", 0)]⟩ : AnomalyEvent) ∈
        scan_all ⟨none, none, some [0, 0, 0, 0, 0, 0, 0, 0, 0, 0, 0]⟩ ∧
      (0 : ℚ) ≤ 1 ∧ (1 : ℚ) ≤ 1 := by
  have hmem : (⟨.LIQUIDITY_CRISIS, 1, "Liquidity crisis", [("depth_ratio", 0)]⟩ : AnomalyEvent) ∈
      scan_all ⟨none, none, some [0, 0, 0, 0, 0, 0, 0, 0, 0, 0, 0]⟩ := by
    norm_num [scan_all, flashEvents, pumpEvents, volumeEvents, liquidityEvents,
      detect_liquidity_crisis, tailWindow, listMean, fromEnd, eps, List.getD]
  exact ⟨hmem,
    (claim_C8_scan_all_severity_in_unit_interval _ _ hmem).1,
    (claim_C8_scan_all_severity_in_unit_interval _ _ hmem).2⟩

/-- Branch events are singletons at most. -/
lemma flashEvents_length (md : MarketData) : (flashEvents md).length ≤ 1 := by
  obtain ⟨mp, mv, mo⟩ := md
  cases mp with
  | none => simp [flashEvents]
  | some p => simp only [flashEvents]; split <;> simp

lemma pumpEvents_length (md : MarketData) : (pumpEvents md).length ≤ 1 := by
  obtain ⟨mp, mv, mo⟩ := md
  cases mp with
  | none => simp [pumpEvents]
  | some p =>
    cases mv with
    | none => simp [pumpEvents]
    | some v => simp only [pumpEvents]; split <;> simp

lemma volumeEvents_length (md : MarketData) : (volumeEvents md).length ≤ 1 := by
  obtain ⟨mp, mv, mo⟩ := md
  cases mv with
  | none => simp [volumeEvents]
  | some v => simp only [volumeEvents]; split <;> simp

lemma liquidityEvents_length (md : MarketData) : (liquidityEvents md).length ≤ 1 := by
  obtain ⟨mp, mv, mo⟩ := md
  cases mo with
  | none => simp [liquidityEvents]
  | some d => simp only [liquidityEvents]; split <;> simp

/-- A nonempty flash block means the detector fired on the supplied
prices. -/
lemma flashEvents_detect (md : MarketData) (h : flashEvents md ≠ []) :
    ∃ p, md.prices = some p ∧ detect_flash_crash p = true := by
  obtain ⟨mp, mv, mo⟩ := md
  cases mp with
  | none => simp [flashEvents] at h
  | some p =>
    refine ⟨p, rfl, ?_⟩
    by_contra hd
    apply h
    simp only [flashEvents]
    rw [if_neg hd]

/-- A nonempty pump block means the detector fired on the supplied prices
and volumes. -/
lemma pumpEvents_detect (md : MarketData) (h : pumpEvents md ≠ []) :
    ∃ p v, md.prices = some p ∧ md.volumes = some v ∧ detect_pump p v = true := by
  obtain ⟨mp, mv, mo⟩ := md
  cases mp with
  | none => simp [pumpEvents] at h
  | some p =>
    cases mv with
    | none => simp [pumpEvents] at h
    | some v =>
      refine ⟨p, v, rfl, rfl, ?_⟩
      by_contra hd
      apply h
      simp only [pumpEvents]
      rw [if_neg hd]

/-- In a list whose members all have anomaly type `ty`, no event of a
different type is counted. -/
lemma countP_type_zero (l : List AnomalyEvent) (ty t : AnomalyType)
    (hl : ∀ e ∈ l, e.anomaly_type = ty) (hne : t ≠ ty) :
    l.countP (fun e => decide (e.anomaly_type = t)) = 0 := by
  rw [List.countP_eq_zero]
  intro e he
  simp only [hl e he, decide_eq_true_eq]
  exact fun hh => hne hh.symm

/-- C10: with default thresholds `scan_all` never returns both a
`FLASH_CRASH` and a `PUMP` event in one call (the same 5-bar return cannot
be both ≤ −5% and ≥ +10%), contains at most one event per anomaly type,
and hence has at most 4 events. -/
theorem claim_C10_scan_all_flash_pump_exclusive (md : MarketData) :
    ((scan_all md).countP (fun e => decide (e.anomaly_type = .FLASH_CRASH)) = 0 ∨
      (scan_all md).countP (fun e => decide (e.anomaly_type = .PUMP)) = 0) ∧
    (∀ t, (scan_all md).countP (fun e => decide (e.anomaly_type = t)) ≤ 1) ∧
    (scan_all md).length ≤ 4 := by
  have hflen := flashEvents_length md
  have hplen := pumpEvents_length md
  have hvlen := volumeEvents_length md
  have hllen := liquidityEvents_length md
  have hfty := fun e he => (flashEvents_mem md e he).1
  have hpty := fun e he => (pumpEvents_mem md e he).1
  have hvty := fun e he => (volumeEvents_mem md e he).1
  have hlty := fun e he => (liquidityEvents_mem md e he).1
  refine ⟨?_, ?_, ?_⟩
  · by_cases hf : flashEvents md = []
    · left
      unfold scan_all
      rw [List.countP_append, List.countP_append, List.countP_append, hf,
        countP_type_zero _ _ _ hpty (by simp),
        countP_type_zero _ _ _ hvty (by simp),
        countP_type_zero _ _ _ hlty (by simp)]
      simp
    · by_cases hpe : pumpEvents md = []
      · right
        unfold scan_all
        rw [List.countP_append, List.countP_append, List.countP_append, hpe,
          countP_type_zero _ _ _ hfty (by simp),
          countP_type_zero _ _ _ hvty (by simp),
          countP_type_zero _ _ _ hlty (by simp)]
        simp
      · exfalso
        obtain ⟨p, hp, hdf⟩ := flashEvents_detect md hf
        obtain ⟨p', v, hp', hv, hdp⟩ := pumpEvents_detect md hpe
        rw [hp] at hp'
        cases Option.some.inj hp'
        exact flash_pump_exclusive p v hdf hdp
  · intro t
    unfold scan_all
    rw [List.countP_append, List.countP_append, List.countP_append]
    have bound : ∀ l : List AnomalyEvent, l.length ≤ 1 →
        l.countP (fun e => decide (e.anomaly_type = t)) ≤ 1 :=
      fun l hl => le_trans (List.countP_le_length _) hl
    cases t with
    | FLASH_CRASH =>
      rw [countP_type_zero _ _ _ hpty (by simp),
        countP_type_zero _ _ _ hvty (by simp),
        countP_type_zero _ _ _ hlty (by simp)]
      have := bound _ hflen
      omega
    | PUMP =>
      rw [countP_type_zero _ _ _ hfty (by simp),
        countP_type_zero _ _ _ hvty (by simp),
        countP_type_zero _ _ _ hlty (by simp)]
      have := bound _ hplen
      omega
    | VOLUME_SPIKE =>
      rw [countP_type_zero _ _ _ hfty (by simp),
        countP_type_zero _ _ _ hpty (by simp),
        countP_type_zero _ _ _ hlty (by simp)]
      have := bound _ hvlen
      omega
    | LIQUIDITY_CRISIS =>
      rw [countP_type_zero _ _ _ hfty (by simp),
        countP_type_zero _ _ _ hpty (by simp),
        countP_type_zero _ _ _ hvty (by simp)]
      have := bound _ hllen
      omega
  · unfold scan_all
    simp only [List.length_append]
    omega

/-- `filterMap` with an if-some-none body is map-after-filter. -/
lemma filterMap_if_eq_map_filter (l : List (Nat × FeatRow)) (s : Nat) :
    (l.filterMap (fun p => if p.1 = s then some p.2 else none)) =
      ((l.filter (fun p => p.1 = s)).map (·.2)) := by
  induction l with
  | nil => rfl
  | cons a t ih =>
    by_cases h : a.1 = s <;> simp [List.filterMap_cons, List.filter_cons, h, ih]

/-- The source's per-state mean computation agrees with the claim's
formulation of it. -/
lemma stateMean_eq_claimStateStats (states : List Nat) (features : List FeatRow)
    (s : Nat) : stateMean states features s = claimStateStats states features s := by
  unfold stateMean claimStateStats listMean
  rw [filterMap_if_eq_map_filter]
  simp only [List.length_map, List.length_eq_zero, List.map_eq_nil_iff]

/-- The source's two guarded singleton appends for one regime group equal
the claim's zip of the group's first two states with `[hi, lo]` (with a
trailing rest). -/
lemma two_slot_append (g : List Nat) (hi lo : MarketRegime)
    (rest : List (Nat × MarketRegime)) :
    (if 1 ≤ g.length then [(g.getD 0 0, hi)] else []) ++
      ((if 2 ≤ g.length then [(g.getD 1 0, lo)] else []) ++ rest) =
      (g.take 2).zip [hi, lo] ++ rest := by
  match g with
  | [] => simp
  | [a] => simp
  | a :: b :: t => simp

/-- `two_slot_append` with no trailing rest. -/
lemma two_slot (g : List Nat) (hi lo : MarketRegime) :
    (if 1 ≤ g.length then [(g.getD 0 0, hi)] else []) ++
      (if 2 ≤ g.length then [(g.getD 1 0, lo)] else []) =
      (g.take 2).zip [hi, lo] := by
  match g with
  | [] => simp
  | [a] => simp
  | a :: b :: t => simp

/-- The mapping the source computes (`_map_states`) is exactly the
two-stage sort rule as the claim words it. -/
lemma map_states_eq_claim (n_regimes : Nat) (states : List Nat)
    (features : List FeatRow) :
    map_states n_regimes states features =
      claim_state_mapping n_regimes states features := by
  unfold map_states claim_state_mapping
  simp only [stateMean_eq_claimStateStats]
  rw [two_slot_append, two_slot]

/-- C1: after every successful `RegimeDetector.fit`, the stored
raw-state-to-regime mapping equals the two-stage sort rule: mean return and
mean volatility per raw state over its assigned rows (`(0, 0)` when
unassigned), states sorted by mean return descending, the top
`n_regimes // 2` bull and the rest bear, each group sorted by mean
volatility descending, the first two of each group mapped to
`(BULL_HIGH_VOL, BULL_LOW_VOL)` / `(BEAR_HIGH_VOL, BEAR_LOW_VOL)`, and
states beyond the first two of a group left unmapped. -/
theorem claim_C1_fit_maps_states_by_two_stage_sort (d : RegimeDetector)
    (hmm : HMMOracle) (features : List FeatRow) :
    (d.fitF hmm features).state_map =
      claim_state_mapping d.n_regimes (hmm.predict features) features :=
  map_states_eq_claim d.n_regimes (hmm.predict features) features

/-- `List.getD` on a cons cell, successor index (definitional). -/
lemma getD_cons_succ_q (a : ℚ) (l : List ℚ) (n : Nat) :
    (a :: l).getD (n + 1) 0 = l.getD n 0 := rfl

/-- `List.getD` on a cons cell, index zero (definitional). -/
lemma getD_cons_zero_q (a : ℚ) (l : List ℚ) : (a :: l).getD 0 0 = a := rfl

/-- `np.argmax` characterisation: on a nonempty list the result is in
range, attains the maximum, and is the first index to do so. -/
lemma argmaxIdx_spec (l : List ℚ) (h : l ≠ []) :
    argmaxIdx l < l.length ∧
      (∀ j, j < l.length → l.getD j 0 ≤ l.getD (argmaxIdx l) 0) ∧
      (∀ j, j < argmaxIdx l → l.getD j 0 < l.getD (argmaxIdx l) 0) := by
  induction l with
  | nil => simp at h
  | cons x t ih =>
    by_cases ht : t = []
    · subst ht
      refine ⟨by simp [argmaxIdx], ?_, ?_⟩
      · intro j hj
        simp only [List.length_singleton, Nat.lt_one_iff] at hj
        subst hj
        simp [argmaxIdx]
      · intro j hj
        simp [argmaxIdx] at hj
    · obtain ⟨h1, h2, h3⟩ := ih ht
      have hlen : ¬t.length = 0 := by simpa [List.length_eq_zero] using ht
      by_cases hx : x < t.getD (argmaxIdx t) 0
      · have ham : argmaxIdx (x :: t) = argmaxIdx t + 1 := by
          simp only [argmaxIdx]
          rw [if_neg hlen, if_pos hx]
        refine ⟨?_, ?_, ?_⟩
        · rw [ham]
          simpa using Nat.succ_lt_succ h1
        · intro j hj
          rw [ham, getD_cons_succ_q]
          cases j with
          | zero => rw [getD_cons_zero_q]; exact le_of_lt hx
          | succ j =>
            rw [getD_cons_succ_q]
            exact h2 j (by simpa using hj)
        · intro j hj
          rw [ham] at hj
          rw [ham, getD_cons_succ_q]
          cases j with
          | zero => rw [getD_cons_zero_q]; exact hx
          | succ j =>
            rw [getD_cons_succ_q]
            exact h3 j (by omega)
      · have ham : argmaxIdx (x :: t) = 0 := by
          simp only [argmaxIdx]
          rw [if_neg hlen, if_neg hx]
        refine ⟨by simp [ham], ?_, ?_⟩
        · intro j hj
          rw [ham, getD_cons_zero_q]
          cases j with
          | zero => rw [getD_cons_zero_q]
          | succ j =>
            rw [getD_cons_succ_q]
            exact le_trans (h2 j (by simpa using hj)) (not_lt.1 hx)
        · intro j hj
          rw [ham] at hj
          omega

/-- The dict built by `predict` equals the claim's per-index labelling of
the posterior row. -/
lemma predictCore_all_probs (state_map : List (Nat × MarketRegime)) (lp : List ℚ) :
    (predictCore state_map lp).all_probabilities = claimAllProbs state_map lp := by
  simp [predictCore, claimAllProbs, claimLabelOf, List.foldl_map]

/-- C5 (counterexample): with `n_regimes = 5` a successful fit leaves one
raw state unmapped (state 4 here: the lowest-volatility bear beyond the
first two).  When that unmapped state has the highest last-row posterior
probability, `predict` reports the hard-coded default `BULL_LOW_VOL`
(line 134), not `MarketRegime(4 % 4) = BULL_HIGH_VOL` as the claim
states. -/
theorem claim_C5_counterexample_reported_default_not_mod4 :
    (map_states 5 [0, 1, 2, 3, 4]
        [⟨5, 5, 0⟩, ⟨4, 4, 0⟩, ⟨3, 3, 0⟩, ⟨2, 2, 0⟩, ⟨1, 1, 0⟩]).lookup 4 = none ∧
      argmaxIdx [0, 0, 0, 0, 1] = 4 ∧
      (predictCore
          (map_states 5 [0, 1, 2, 3, 4]
            [⟨5, 5, 0⟩, ⟨4, 4, 0⟩, ⟨3, 3, 0⟩, ⟨2, 2, 0⟩, ⟨1, 1, 0⟩])
          [0, 0, 0, 0, 1]).regime = .BULL_LOW_VOL ∧
      MarketRegime.fromCode (4 % 4) = .BULL_HIGH_VOL ∧
      MarketRegime.BULL_LOW_VOL ≠ MarketRegime.BULL_HIGH_VOL := by
  have hmap : map_states 5 [0, 1, 2, 3, 4]
      [⟨5, 5, 0⟩, ⟨4, 4, 0⟩, ⟨3, 3, 0⟩, ⟨2, 2, 0⟩, ⟨1, 1, 0⟩] =
      [(0, .BULL_HIGH_VOL), (1, .BULL_LOW_VOL), (2, .BEAR_HIGH_VOL),
        (3, .BEAR_LOW_VOL)] := by
    norm_num [map_states, stateMean, List.insertionSort, List.orderedInsert,
      List.range_succ, List.getD, List.filter_cons]
  have ham : argmaxIdx [(0 : ℚ), 0, 0, 0, 1] = 4 := by
    norm_num [argmaxIdx, List.getD]
  refine ⟨by rw [hmap]; rfl, ham, ?_, rfl, by simp⟩
  rw [hmap]
  simp [predictCore, ham, List.lookup]

/-- C5 (amended): on a fitted detector, `predict` reports the canonical
label of the raw state with the highest last-row posterior probability
(first such index); a most-likely raw state with no entry in the state map
defaults to `BULL_LOW_VOL` (not `MarketRegime(state % 4)`), while the
returned all-probabilities map labels unmapped states with the
`MarketRegime(state_index % 4)` fallback. -/
theorem claim_C5_amended_predict_argmax_and_defaults (d : RegimeDetector)
    (hmm : HMMOracle) (features : List FeatRow) (lp : List ℚ)
    (hfit : d.is_fitted = true)
    (hlast : (hmm.predictProba features).getLast? = some lp) (hne : lp ≠ []) :
    d.predictE hmm features = .ok (predictCore d.state_map lp) ∧
      (predictCore d.state_map lp).regime =
        (d.state_map.lookup (argmaxIdx lp)).getD .BULL_LOW_VOL ∧
      (argmaxIdx lp < lp.length ∧
        (∀ j, j < lp.length → lp.getD j 0 ≤ lp.getD (argmaxIdx lp) 0) ∧
        (∀ j, j < argmaxIdx lp → lp.getD j 0 < lp.getD (argmaxIdx lp) 0)) ∧
      (predictCore d.state_map lp).probability = lp.getD (argmaxIdx lp) 0 ∧
      (predictCore d.state_map lp).all_probabilities = claimAllProbs d.state_map lp := by
  refine ⟨?_, rfl, argmaxIdx_spec lp hne, rfl, predictCore_all_probs _ _⟩
  simp [RegimeDetector.predictE, hfit, hlast]

/-- C5 (witness): the amended theorem applied to a concrete fitted
detector and a concrete two-state posterior. -/
theorem claim_C5_amended_predict_witness :
    (RegimeDetector.mk 4 20 [(0, MarketRegime.BULL_HIGH_VOL)] [] true).predictE
        ⟨fun _ => [], fun _ => [[1/2, 1/3]], []⟩ [] =
      .ok (predictCore [(0, MarketRegime.BULL_HIGH_VOL)] [1/2, 1/3]) ∧
      (predictCore [(0, MarketRegime.BULL_HIGH_VOL)] [1/2, 1/3]).regime =
        (([(0, MarketRegime.BULL_HIGH_VOL)] : List (Nat × MarketRegime)).lookup
          (argmaxIdx [1/2, 1/3])).getD .BULL_LOW_VOL ∧
      (argmaxIdx [(1 : ℚ)/2, 1/3] < ([(1 : ℚ)/2, 1/3] : List ℚ).length ∧
        (∀ j, j < ([(1 : ℚ)/2, 1/3] : List ℚ).length →
          ([(1 : ℚ)/2, 1/3] : List ℚ).getD j 0 ≤
            ([(1 : ℚ)/2, 1/3] : List ℚ).getD (argmaxIdx [(1 : ℚ)/2, 1/3]) 0) ∧
        (∀ j, j < argmaxIdx [(1 : ℚ)/2, 1/3] →
          ([(1 : ℚ)/2, 1/3] : List ℚ).getD j 0 <
            ([(1 : ℚ)/2, 1/3] : List ℚ).getD (argmaxIdx [(1 : ℚ)/2, 1/3]) 0)) ∧
      (predictCore [(0, MarketRegime.BULL_HIGH_VOL)] [1/2, 1/3]).probability =
        ([(1 : ℚ)/2, 1/3] : List ℚ).getD (argmaxIdx [(1 : ℚ)/2, 1/3]) 0 ∧
      (predictCore [(0, MarketRegime.BULL_HIGH_VOL)] [1/2, 1/3]).all_probabilities =
        claimAllProbs [(0, MarketRegime.BULL_HIGH_VOL)] [1/2, 1/3] :=
  claim_C5_amended_predict_argmax_and_defaults
    (RegimeDetector.mk 4 20 [(0, MarketRegime.BULL_HIGH_VOL)] [] true)
    ⟨fun _ => [], fun _ => [[1/2, 1/3]], []⟩ [] [1/2, 1/3] rfl rfl (by simp)

/-- `np.linspace` returns exactly `num` points. -/
lemma linspace_length (start stop : ℚ) (num : Nat) :
    (linspace start stop num).length = num := by
  unfold linspace
  split
  · rename_i h0
    simp [h0]
  · split
    · rename_i h1
      simp [h1]
    · rw [List.length_map, List.length_range]

/-- C6: `efficient_frontier` keeps only targets whose solve succeeded, so
it returns at most `n_points` points, and the result is sorted
non-decreasing by the risk field (the source's risk is `sqrt(wᵀΣw)`; the
embedding stores the variance, and `Real.sqrt` of it recovers the
source's ordering). -/
theorem claim_C6_frontier_count_and_sorted (slsqp : EFProblem → SolverResult)
    (returns : List (List ℚ)) (n_points : Nat) (allow_short : Bool)
    (h : 1 ≤ n_points) :
    (efficient_frontier slsqp returns n_points allow_short).length ≤ n_points ∧
      List.Sorted (fun a b => Real.sqrt (a.risk : ℝ) ≤ Real.sqrt (b.risk : ℝ))
        (efficient_frontier slsqp returns n_points allow_short) := by
  constructor
  · simp only [efficient_frontier]
    rw [List.length_insertionSort]
    exact le_trans (List.length_filterMap_le _ _) (le_of_eq (linspace_length _ _ _))
  · have hs : List.Sorted (fun a b : EfficientFrontierPoint => a.risk ≤ b.risk)
        (efficient_frontier slsqp returns n_points allow_short) := by
      simp only [efficient_frontier]
      haveI : IsTotal EfficientFrontierPoint (fun a b => a.risk ≤ b.risk) :=
        ⟨fun a b => le_total _ _⟩
      haveI : IsTrans EfficientFrontierPoint (fun a b => a.risk ≤ b.risk) :=
        ⟨fun _ _ _ => le_trans⟩
      exact List.sorted_insertionSort _ _
    exact hs.imp (fun hab => Real.sqrt_le_sqrt (by exact_mod_cast hab))

/-- C6 (witness): the theorem applied to a one-target frontier trace whose
solver succeeds. -/
theorem claim_C6_frontier_witness :
    (efficient_frontier (fun _ => ⟨[1], true⟩) [[0]] 1 false).length ≤ 1 ∧
      List.Sorted (fun a b => Real.sqrt (a.risk : ℝ) ≤ Real.sqrt (b.risk : ℝ))
        (efficient_frontier (fun _ => ⟨[1], true⟩) [[0]] 1 false) :=
  claim_C6_frontier_count_and_sorted (fun _ => ⟨[1], true⟩) [[0]] 1 false (by norm_num)

/-- C7 (witness): two samplers that differ at seed 0 but agree at seed 42
give the same VaR. -/
theorem claim_C7_monte_carlo_var_witness :
    (fun seed (_ : MVNSpec) => if seed = 42 then [[(0 : ℚ)]] else [[1]]) 0
        ⟨[], [], 1⟩ ≠ (fun _ (_ : MVNSpec) => [[(0 : ℚ)]]) 0 ⟨[], [], 1⟩ ∧
      monte_carlo_var (fun seed _ => if seed = 42 then [[(0 : ℚ)]] else [[1]])
          [[0]] (19/20) 1 1 =
        monte_carlo_var (fun _ _ => [[(0 : ℚ)]]) [[0]] (19/20) 1 1 :=
  ⟨by norm_num,
    claim_C7_monte_carlo_var_deterministic _ _ [[0]] (19/20) 1 1 (fun _ => by norm_num)⟩

end Iswcoin
